import Mathlib

/-!
Verification of ContextWeaver's indexing and embedding pipeline.

The definitions below are a shallow embedding of the TypeScript sources:
`src/api/embedding.ts` (rate-limit controller and embedding client),
`src/indexer/index.ts` (the `Indexer.batchIndex` orchestration),
`src/scanner/index.ts` (the scan prelude and self-healing collection), and
`src/config.ts` (`getRerankerConfig`).  Remote calls and store writes are
modelled by explicit outcome parameters and an operation trace.
-/

namespace ContextWeaver

/- ## Rate-limit controller (src/api/embedding.ts, class RateLimitController) -/

/-- `minBackoffMs` of the controller. -/
def minBackoffMs : Nat := 5000

/-- `maxBackoffMs` of the controller. -/
def maxBackoffMs : Nat := 60000

/-- `successesPerConcurrencyIncrease` of the controller. -/
def successesPerConcurrencyIncrease : Nat := 3

/-- The mutable fields of `RateLimitController`. -/
structure RLState where
  isPaused : Bool
  currentConcurrency : Nat
  maxConcurrency : Nat
  activeRequests : Nat
  consecutiveSuccesses : Nat
  backoffMs : Nat
deriving Repr, DecidableEq

/-- The constructor `new RateLimitController(maxConcurrency)`. -/
def RLState.init (maxConcurrency : Nat) : RLState :=
  { isPaused := false
    currentConcurrency := maxConcurrency
    maxConcurrency := maxConcurrency
    activeRequests := 0
    consecutiveSuccesses := 0
    backoffMs := 5000 }

/-- `releaseSuccess()`: decrement active requests (clamped at 0, which Nat
subtraction models), count a consecutive success, grow concurrency by one
after `successesPerConcurrencyIncrease` consecutive successes while below the
maximum, and halve the backoff (clamped at `minBackoffMs`) whenever the
consecutive-success counter is a positive multiple of 10. -/
def releaseSuccess (s : RLState) : RLState :=
  let s1 : RLState :=
    { s with
      activeRequests := s.activeRequests - 1
      consecutiveSuccesses := s.consecutiveSuccesses + 1 }
  let s2 : RLState :=
    if s1.currentConcurrency < s1.maxConcurrency ∧
        successesPerConcurrencyIncrease ≤ s1.consecutiveSuccesses then
      { s1 with
        currentConcurrency := s1.currentConcurrency + 1
        consecutiveSuccesses := 0 }
    else s1
  if 0 < s2.consecutiveSuccesses ∧ s2.consecutiveSuccesses % 10 = 0 then
    { s2 with backoffMs := Nat.max minBackoffMs (s2.backoffMs / 2) }
  else s2

/-- `releaseFailure()`: only the slot is released. -/
def releaseFailure (s : RLState) : RLState :=
  { s with activeRequests := s.activeRequests - 1 }

/-- `releaseForRetry()`: release the slot and reset the success streak. -/
def releaseForRetry (s : RLState) : RLState :=
  { s with
    activeRequests := s.activeRequests - 1
    consecutiveSuccesses := 0 }

/-- The controller state during the backoff sleep of `triggerRateLimit()`
(not-already-paused path): paused flag set, success streak reset, effective
concurrency dropped to 1.  `backoffMs` is still the pre-pause value, which is
exactly how long the sleep lasts. -/
def triggerRateLimitEnter (s : RLState) : RLState :=
  { s with
    isPaused := true
    consecutiveSuccesses := 0
    currentConcurrency := 1 }

/-- `triggerRateLimit()` on the not-already-paused path: returns the number of
milliseconds slept together with the state after resuming (backoff doubled,
capped at `maxBackoffMs`, pause lifted). -/
def triggerRateLimit (s : RLState) : Nat × RLState :=
  let p := triggerRateLimitEnter s
  (p.backoffMs,
   { p with
     backoffMs := Nat.min maxBackoffMs (p.backoffMs * 2)
     isPaused := false })

/-- `acquire()` waits (instead of granting a slot) exactly when the controller
is paused or the active requests have reached the effective concurrency. -/
def acquireWouldWait (s : RLState) : Bool :=
  s.isPaused || decide (s.currentConcurrency ≤ s.activeRequests)

/- ## Embedding client (src/api/embedding.ts, class EmbeddingClient) -/

/-- One element of the endpoint response's `data` array. -/
structure EmbeddingData where
  index : Nat
  embedding : List Int
deriving Repr, DecidableEq

/-- The `EmbeddingResult` record returned by the client. -/
structure EmbeddingResult where
  text : String
  embedding : List Int
  index : Nat
deriving Repr, DecidableEq

/-- `processBatch` on a parsed, non-error response body: one result per
response item, in response order.  `texts[item.index]` is modelled with a
default for the out-of-range case, where the source would store `undefined`. -/
def processBatch (texts : List String) (startIndex : Nat)
    (data : List EmbeddingData) : List EmbeddingResult :=
  data.map fun item =>
    { text := texts.getD item.index ""
      embedding := item.embedding
      index := startIndex + item.index }

/-- The outcome of one `processBatch` attempt (one `fetch` plus body parse):
either the response body's `data` array, or a thrown error with the two
classifications `processWithRateLimit` derives from it (`isRateLimited` from
the message containing `429` or `rate`, `isNetworkError` from
`isNetworkError`). -/
inductive BatchAttempt where
  | ok (data : List EmbeddingData)
  | err (isRateLimited : Bool) (isNetworkError : Bool) (msg : String)
deriving Repr, DecidableEq

/-- How a `processWithRateLimit` call ends.  `noMoreAttempts` is a modelling
artifact for an attempt oracle that ran dry (in the source every `fetch`
produces some outcome). -/
inductive ProcOutcome where
  | ok (results : List EmbeddingResult)
  | thrown (msg : String)
  | noMoreAttempts
deriving Repr, DecidableEq

/-- Observable side effects of a `processWithRateLimit` call: rate-limiter
slots acquired, HTTP requests issued, progress callbacks fired
(`progress.recordBatch`), the sleeps of the network-retry backoff, and how
often the global rate-limit pause was triggered. -/
structure ProcTrace where
  slotAcquisitions : Nat
  httpRequests : Nat
  progressCalls : Nat
  retryDelaysMs : List Nat
  rateLimitTriggers : Nat
deriving Repr, DecidableEq

/-- The all-zero trace. -/
def emptyTrace : ProcTrace :=
  { slotAcquisitions := 0
    httpRequests := 0
    progressCalls := 0
    retryDelaysMs := []
    rateLimitTriggers := 0 }

/-- Pointwise combination of two traces. -/
def ProcTrace.add (a b : ProcTrace) : ProcTrace :=
  { slotAcquisitions := a.slotAcquisitions + b.slotAcquisitions
    httpRequests := a.httpRequests + b.httpRequests
    progressCalls := a.progressCalls + b.progressCalls
    retryDelaysMs := a.retryDelaysMs ++ b.retryDelaysMs
    rateLimitTriggers := a.rateLimitTriggers + b.rateLimitTriggers }

/-- `MAX_NETWORK_RETRIES` of `processWithRateLimit`. -/
def MAX_NETWORK_RETRIES : Nat := 3

/-- `INITIAL_RETRY_DELAY_MS` of `processWithRateLimit`. -/
def INITIAL_RETRY_DELAY_MS : Nat := 1000

/-- `processWithRateLimit`: loop over attempt outcomes.  A rate-limited error
releases the slot, triggers the global pause and restarts with the network
retry counter reset; a network-class error below `MAX_NETWORK_RETRIES` sleeps
`INITIAL_RETRY_DELAY_MS * 2 ^ (networkRetries - 1)` (with the incremented
counter) and retries; anything else is thrown.  Success records one progress
call inside `processBatch`. -/
def processWithRateLimit (texts : List String) (startIndex : Nat) :
    List BatchAttempt → Nat → ProcOutcome × ProcTrace
  | [], _ => (.noMoreAttempts, emptyTrace)
  | .ok data :: _, _ =>
      (.ok (processBatch texts startIndex data),
       { slotAcquisitions := 1
         httpRequests := 1
         progressCalls := 1
         retryDelaysMs := []
         rateLimitTriggers := 0 })
  | .err rl net msg :: rest, networkRetries =>
      if rl = true then
        let rt := processWithRateLimit texts startIndex rest 0
        (rt.1,
         { slotAcquisitions := rt.2.slotAcquisitions + 1
           httpRequests := rt.2.httpRequests + 1
           progressCalls := rt.2.progressCalls
           retryDelaysMs := rt.2.retryDelaysMs
           rateLimitTriggers := rt.2.rateLimitTriggers + 1 })
      else if net = true ∧ networkRetries < MAX_NETWORK_RETRIES then
        let delayMs := INITIAL_RETRY_DELAY_MS * 2 ^ networkRetries
        let rt := processWithRateLimit texts startIndex rest (networkRetries + 1)
        (rt.1,
         { slotAcquisitions := rt.2.slotAcquisitions + 1
           httpRequests := rt.2.httpRequests + 1
           progressCalls := rt.2.progressCalls
           retryDelaysMs := delayMs :: rt.2.retryDelaysMs
           rateLimitTriggers := rt.2.rateLimitTriggers })
      else
        (.thrown msg,
         { slotAcquisitions := 1
           httpRequests := 1
           progressCalls := 0
           retryDelaysMs := []
           rateLimitTriggers := 0 })

/-- The batch-splitting loop of `embedBatch`: consecutive slices of length
`batchSize` (the source's `texts.slice(i, i + batchSize)` loop; callers pass
`batchSize ≥ 1`). -/
def mkBatches (batchSize : Nat) : List String → List (List String)
  | [] => []
  | t :: ts =>
      (t :: ts.take (batchSize - 1)) :: mkBatches batchSize (ts.drop (batchSize - 1))
termination_by l => l.length
decreasing_by
  simp only [List.length_drop, List.length_cons]
  omega

/-- Sequencing of the per-batch outcomes, modelling `Promise.all` followed by
`.flat()`: all results concatenated in batch order, or the first failure. -/
def collectResults : List ProcOutcome → Except String (List EmbeddingResult)
  | [] => .ok []
  | .ok rs :: rest => (collectResults rest).map (fun tail => rs ++ tail)
  | .thrown msg :: _ => .error msg
  | .noMoreAttempts :: _ => .error "attempt oracle exhausted"

/-- What `embedBatch` produces: the returned results (or the propagated
exception) together with the summed side-effect trace. -/
structure EmbedOutcome where
  result : Except String (List EmbeddingResult)
  trace : ProcTrace
deriving Repr

/-- `embedBatch(texts, batchSize, onProgress)`: empty input returns `[]`
before any batch, tracker or request is created; otherwise the text list is
split into batches and each batch `bi` runs `processWithRateLimit` with
`startIndex = bi * batchSize`, consuming the attempt outcomes `attempts bi`. -/
def embedBatch (texts : List String) (batchSize : Nat)
    (attempts : Nat → List BatchAttempt) : EmbedOutcome :=
  if texts.length = 0 then
    { result := .ok [], trace := emptyTrace }
  else
    let batches := mkBatches batchSize texts
    let runs := batches.enum.map fun p =>
      processWithRateLimit p.2 (p.1 * batchSize) (attempts p.1) 0
    { result := collectResults (runs.map Prod.fst)
      trace := (runs.map Prod.snd).foldl ProcTrace.add emptyTrace }

/- ## Chunk data model (src/chunking/types.ts, as consumed by the Indexer) -/

/-- A byte range; `stop` stands for the source's `end`, a Lean keyword. -/
structure Span where
  start : Nat
  stop : Nat
deriving Repr, DecidableEq

/-- The chunk metadata fields the Indexer reads. -/
structure ChunkMetadata where
  language : String
  contextPath : List String
  startIndex : Nat
  endIndex : Nat
  rawSpan : Span
  vectorSpan : Span
deriving Repr, DecidableEq

/-- A processed chunk as consumed by the Indexer. -/
structure ProcessedChunk where
  displayCode : String
  vectorText : String
  metadata : ChunkMetadata
deriving Repr, DecidableEq

/-- A row of the vector store. -/
structure ChunkRecord where
  chunk_id : String
  file_path : String
  file_hash : String
  chunk_index : Nat
  vector : List Int
  display_code : String
  vector_text : String
  language : String
  breadcrumb : String
  start_index : Nat
  end_index : Nat
  raw_start : Nat
  raw_end : Nat
  vec_start : Nat
  vec_end : Nat
deriving Repr, DecidableEq

/-- A row of the chunk FTS index, as collected by `batchIndex`. -/
structure FtsChunk where
  chunkId : String
  filePath : String
  chunkIndex : Nat
  breadcrumb : String
  content : String
deriving Repr, DecidableEq

/- ## Indexer (src/indexer/index.ts, class Indexer) -/

/-- `FileToIndex` of the Indexer. -/
structure FileToIndex where
  path : String
  hash : String
  chunks : List ProcessedChunk
deriving Repr, DecidableEq

/-- Phase 1 of `batchIndex`: all `vectorText`s in file order then chunk order
(the double loop filling `allTexts`; the global index of a chunk is its
position in this list). -/
def allVectorTexts (files : List FileToIndex) : List String :=
  files.flatMap fun f => f.chunks.map fun c => c.vectorText

/-- The global index of the first chunk of file number `fileIdx`. -/
def chunkOffset (files : List FileToIndex) (fileIdx : Nat) : Nat :=
  ((files.take fileIdx).map fun f => f.chunks.length).sum

/-- Phase 3 of `batchIndex` for one file: one `ChunkRecord` per chunk.  The
defensive lookup failure of the source cannot fire because every (file, chunk)
pair was assigned a global index in phase 1; `embeddings[globalIdx]` is
modelled with a default for the out-of-range case. -/
def assembleRecords (embeddings : List (List Int)) (offset : Nat)
    (f : FileToIndex) : List ChunkRecord :=
  f.chunks.enum.map fun p =>
    { chunk_id := f.path ++ "#" ++ f.hash ++ "#" ++ toString p.1
      file_path := f.path
      file_hash := f.hash
      chunk_index := p.1
      vector := embeddings.getD (offset + p.1) []
      display_code := p.2.displayCode
      vector_text := p.2.vectorText
      language := p.2.metadata.language
      breadcrumb := String.intercalate " > " p.2.metadata.contextPath
      start_index := p.2.metadata.startIndex
      end_index := p.2.metadata.endIndex
      raw_start := p.2.metadata.rawSpan.start
      raw_end := p.2.metadata.rawSpan.stop
      vec_start := p.2.metadata.vectorSpan.start
      vec_end := p.2.metadata.vectorSpan.stop }

/-- The FTS row collected for one assembled record. -/
def ftsChunkOf (r : ChunkRecord) : FtsChunk :=
  { chunkId := r.chunk_id
    filePath := r.file_path
    chunkIndex := r.chunk_index
    breadcrumb := r.breadcrumb
    content := r.breadcrumb ++ "\n" ++ r.display_code }

/-- A store mutation issued by `batchIndex`, in issue order: the two SQLite
file-table updates (`clearVectorIndexHash`, `batchUpdateVectorIndexHash`), the
LanceDB batch write, and the two FTS updates. -/
inductive StoreOp where
  | clearVectorIndexHash (paths : List String)
  | vectorBatchUpsertFiles (files : List (String × String × List ChunkRecord))
  | ftsBatchDeleteFiles (paths : List String)
  | ftsBatchUpsertChunks (chunks : List FtsChunk)
  | batchUpdateVectorIndexHash (files : List (String × String))
deriving Repr, DecidableEq

/-- The value of `batchIndex` plus its trace of store mutations. -/
structure BatchIndexOutcome where
  success : Nat
  errors : Nat
  ops : List StoreOp
deriving Repr, DecidableEq

/-- `Indexer.batchIndex(db, files, onProgress)`.  The embedding call is the
`embedBatch` model above (batch size 20, driven by the attempt oracle); the
LanceDB batch write and the FTS delete/insert block are modelled by their
outcome parameters.  `ftsInitialized` is `isChunksFtsInitialized(db)`.  The
source guards phase 4 with `filesToUpsert.length > 0`, which holds whenever
`files` is nonempty because assembly of every file succeeds; a failed FTS
block is only logged and mutates nothing in the trace (the source may leave a
partially applied FTS update, which the trace does not track). -/
def batchIndex (files : List FileToIndex) (attempts : Nat → List BatchAttempt)
    (vectorWrite : Except String Unit) (ftsInitialized : Bool)
    (ftsWrite : Except String Unit) : BatchIndexOutcome :=
  if files.length = 0 then
    { success := 0, errors := 0, ops := [] }
  else
    let allTexts := allVectorTexts files
    if allTexts.length = 0 then
      { success := 0, errors := 0, ops := [] }
    else
      match (embedBatch allTexts 20 attempts).result with
      | .error _ =>
          { success := 0
            errors := files.length
            ops := [.clearVectorIndexHash (files.map fun f => f.path)] }
      | .ok results =>
          let embeddings := results.map fun r => r.embedding
          let filesToUpsert := files.enum.map fun p =>
            (p.2.path, p.2.hash, assembleRecords embeddings (chunkOffset files p.1) p.2)
          let allFtsChunks := filesToUpsert.flatMap fun fu => fu.2.2.map ftsChunkOf
          let successFiles := files.map fun f => (f.path, f.hash)
          match vectorWrite with
          | .error _ =>
              { success := 0
                errors := files.length
                ops := [.clearVectorIndexHash (files.map fun f => f.path)] }
          | .ok _ =>
              let upsertOps := [StoreOp.vectorBatchUpsertFiles filesToUpsert]
              let ftsOps :=
                if ftsInitialized = true ∧ 0 < allFtsChunks.length then
                  match ftsWrite with
                  | .ok _ =>
                      [StoreOp.ftsBatchDeleteFiles (filesToUpsert.map fun fu => fu.1),
                       StoreOp.ftsBatchUpsertChunks allFtsChunks]
                  | .error _ => []
                else []
              let metaOps :=
                if 0 < successFiles.length then
                  [StoreOp.batchUpdateVectorIndexHash successFiles]
                else []
              { success := successFiles.length
                errors := 0
                ops := upsertOps ++ ftsOps ++ metaOps }

/- ## Metadata file table (effect of the SQLite ops on file rows) -/

/-- A row of the metadata file table (the `FileMeta` shape `scan` upserts). -/
structure FileMeta where
  path : String
  hash : String
  mtime : Nat
  size : Nat
  content : Option String
  language : String
  vectorIndexHash : Option String
deriving Repr, DecidableEq

/-- Modelled from the spec: `db/index.ts` is not under `src/`.  Effect of a
store mutation on the file table: `clearVectorIndexHash` sets
`vector_index_hash` to null for the listed paths, `batchUpdateVectorIndexHash`
sets it to the paired hash; vector-store and FTS ops do not touch the file
table. -/
def applyStoreOp (meta : List FileMeta) : StoreOp → List FileMeta
  | .clearVectorIndexHash paths =>
      meta.map fun m =>
        if m.path ∈ paths then { m with vectorIndexHash := none } else m
  | .batchUpdateVectorIndexHash files =>
      meta.map fun m =>
        match files.lookup m.path with
        | some h => { m with vectorIndexHash := some h }
        | none => m
  | _ => meta

/-- Modelled from the spec: `db/index.ts` is not under `src/`.  The "needs
reindex" read: the paths whose `vector_index_hash` differs from
`content_hash`. -/
def getFilesNeedingVectorIndex (meta : List FileMeta) : List String :=
  (meta.filter fun m => m.vectorIndexHash ≠ some m.hash).map fun m => m.path

/- ## Scanner (src/scanner/index.ts) -/

/-- The `status` of a `ProcessResult`. -/
inductive FileStatus where
  | added
  | modified
  | unchanged
  | deleted
  | skipped
  | error
deriving Repr, DecidableEq

/-- A `ProcessResult` of `scanner/processor.ts`, with the fields `scan` and
the Indexer read. -/
structure ProcessResult where
  absPath : String
  relPath : String
  hash : String
  content : Option String
  chunks : List ProcessedChunk
  language : String
  mtime : Nat
  size : Nat
  status : FileStatus
  err : Option String
deriving Repr, DecidableEq

/-- What reading and chunking one path yields; the filesystem oracle feeding
the modelled processor. -/
structure FsFile where
  absPath : String
  relPath : String
  readable : Bool
  content : String
  hash : String
  mtime : Nat
  size : Nat
  language : String
  chunks : List ProcessedChunk
deriving Repr

/-- Modelled from the spec: `scanner/processor.ts` is not under `src/`.  Per
the spec, a file that cannot be read is marked skipped with no index-state
change; a path absent from the known metadata is `added`; a known path whose
content hash differs is `modified`; otherwise it is `unchanged` (and carries
no chunks, as the `scan` self-healing comment records). -/
def processFile (known : List (String × String)) (f : FsFile) : ProcessResult :=
  if f.readable = false then
    { absPath := f.absPath, relPath := f.relPath, hash := "", content := none
      chunks := [], language := f.language, mtime := 0, size := 0
      status := .skipped, err := some "unreadable" }
  else
    match known.lookup f.relPath with
    | none =>
        { absPath := f.absPath, relPath := f.relPath, hash := f.hash
          content := some f.content, chunks := f.chunks, language := f.language
          mtime := f.mtime, size := f.size, status := .added, err := none }
    | some h =>
        if h = f.hash then
          { absPath := f.absPath, relPath := f.relPath, hash := f.hash
            content := none, chunks := [], language := f.language
            mtime := f.mtime, size := f.size, status := .unchanged, err := none }
        else
          { absPath := f.absPath, relPath := f.relPath, hash := f.hash
            content := some f.content, chunks := f.chunks, language := f.language
            mtime := f.mtime, size := f.size, status := .modified, err := none }

/-- Modelled from the spec: `processFiles` classifies each given file against
the known metadata. -/
def processFiles (known : List (String × String)) (fs : List FsFile) :
    List ProcessResult :=
  fs.map (processFile known)

/-- The placeholder `ProcessResult` that `scan` creates for a deleted path. -/
def deletedPlaceholder (path : String) : ProcessResult :=
  { absPath := "", relPath := path, hash := "", content := none, chunks := []
    language := "", mtime := 0, size := 0, status := .deleted, err := none }

/-- The vector-index preparation of `scan` (src/scanner/index.ts:197-235):
collect added/modified results, re-process the unchanged files whose path is
in the needs-reindex set with empty known metadata (forcing a re-read and
re-chunk), restamp the readable ones as `modified`, and append the deleted
placeholders.  `fsEntry` is the filesystem oracle used by the healing
re-process. -/
def scanVectorIndexCandidates (results : List ProcessResult)
    (healingPaths : List String) (deletedPaths : List String)
    (fsEntry : String → FsFile) : List ProcessResult :=
  let needsVectorIndex := results.filter fun r =>
    r.status = FileStatus.added ∨ r.status = FileStatus.modified
  let healingFilePaths := (results.filter fun r =>
    r.status = FileStatus.unchanged ∧ r.relPath ∈ healingPaths).map fun r => r.absPath
  let healingFiles :=
    if 0 < healingFilePaths.length then
      ((processFiles [] (healingFilePaths.map fsEntry)).filter fun r =>
        r.status = FileStatus.added ∨ r.status = FileStatus.modified).map
        fun r => { r with status := FileStatus.modified }
    else []
  needsVectorIndex ++ healingFiles ++ deletedPaths.map deletedPlaceholder

/-- The partition step of `Indexer.indexFiles`: the files to (re)index are the
added/modified results that carry at least one chunk. -/
def indexFilesToIndex (results : List ProcessResult) : List FileToIndex :=
  results.filterMap fun r =>
    match r.status with
    | .added | .modified =>
        if 0 < r.chunks.length then
          some { path := r.relPath, hash := r.hash, chunks := r.chunks }
        else none
    | _ => none

/- ## Scan prelude: embedding-dimension check (src/scanner/index.ts:79-111) -/

/-- The persistent index state the scan prelude touches: the metadata file
table, the stored-dimension key-value pane, and the vector store rows. -/
structure IndexState where
  meta : List FileMeta
  storedDimensions : Option Nat
  vectorChunks : List ChunkRecord
deriving Repr, DecidableEq

/-- Modelled from the spec: `db/index.ts` is not under `src/`.  `clear(db)`
empties the file table. -/
def dbClear (st : IndexState) : IndexState :=
  { st with meta := [] }

/-- Modelled from the spec: the key-value pane read of the recorded vector
dimension. -/
def getStoredEmbeddingDimensions (st : IndexState) : Option Nat :=
  st.storedDimensions

/-- Modelled from the spec: the key-value pane write of the vector
dimension. -/
def setStoredEmbeddingDimensions (st : IndexState) (d : Nat) : IndexState :=
  { st with storedDimensions := some d }

/-- Modelled from the spec: `indexer.clear()` empties the vector store. -/
def vectorStoreClear (st : IndexState) : IndexState :=
  { st with vectorChunks := [] }

/-- What the scan prelude decides and leaves behind: the reindex flag, the
updated persistent state, and the known-file metadata read afterwards. -/
structure DimCheckResult where
  forceReindex : Bool
  state : IndexState
  knownFiles : List FileMeta
deriving Repr, DecidableEq

/-- The scan prelude: when vector indexing is enabled, compare the stored
dimension with the configured one, force a reindex on mismatch and write the
configured value back; a forced reindex clears the file table and (when
vector indexing is enabled) the vector store; `knownFiles` is read after. -/
def scanDimensionCheck (force : Bool) (vectorIndexEnabled : Bool)
    (currentDimensions : Nat) (st : IndexState) : DimCheckResult :=
  let fr1 :=
    if vectorIndexEnabled = true then
      let stored := getStoredEmbeddingDimensions st
      force ∨ (stored ≠ none ∧ stored ≠ some currentDimensions)
    else force
  let st1 :=
    if vectorIndexEnabled = true then
      setStoredEmbeddingDimensions st currentDimensions
    else st
  let st2 :=
    if fr1 = true then
      if vectorIndexEnabled = true then vectorStoreClear (dbClear st1)
      else dbClear st1
    else st1
  { forceReindex := fr1, state := st2, knownFiles := st2.meta }

/-- The known-file map `processFiles` is given: path to content hash. -/
def knownOf (meta : List FileMeta) : List (String × String) :=
  meta.map fun m => (m.path, m.hash)

/- ## Reranker configuration (src/config.ts, getRerankerConfig) -/

/-- The `RerankerConfig` shape. -/
structure RerankerConfig where
  apiKey : String
  baseUrl : String
  model : String
  topN : Nat
deriving Repr, DecidableEq

/-- The environment variables `getRerankerConfig` reads; `none` models an
unset variable. -/
structure RerankerEnv where
  apiKey : Option String
  baseUrl : Option String
  model : Option String
  topN : Option String
deriving Repr

/-- JavaScript truthiness on an optional environment string: unset and the
empty string are falsy. -/
def isFalsy : Option String → Bool
  | none => true
  | some s => s = ""

/-- The `process.env.X || fallback` idiom. -/
def envOr (v : Option String) (fallback : String) : String :=
  match v with
  | none => fallback
  | some s => if s = "" then fallback else s

/-- `parseInt(s, 10)` restricted to the shapes that occur here: the longest
leading digit run, `none` for `NaN` (no leading digit).  The source also
accepts signs and leading whitespace, which no claim exercises. -/
def parseIntLeading (s : String) : Option Nat :=
  let ds := s.toList.takeWhile fun c => c.isDigit
  if ds.isEmpty then none
  else some (ds.foldl (fun a c => a * 10 + (c.toNat - 48)) 0)

/-- `getRerankerConfig()`: throws on missing key, base URL or model;
`topN = parseInt(RERANK_TOP_N || "10", 10)` with `NaN` falling back to 10. -/
def getRerankerConfig (env : RerankerEnv) : Except String RerankerConfig :=
  let topN := parseIntLeading (envOr env.topN "10")
  if isFalsy env.apiKey then .error "RERANK_API_KEY missing"
  else if isFalsy env.baseUrl then .error "RERANK_BASE_URL missing"
  else if isFalsy env.model then .error "RERANK_MODEL missing"
  else
    .ok { apiKey := env.apiKey.getD ""
          baseUrl := env.baseUrl.getD ""
          model := env.model.getD ""
          topN := topN.getD 10 }

/- ## Concrete sample inputs used by witnesses and counterexamples -/

/-- A sample chunk. -/
def sampleChunk : ProcessedChunk :=
  { displayCode := "function f() {}"
    vectorText := "App > f\nfunction f() {}"
    metadata :=
      { language := "typescript"
        contextPath := ["App", "f"]
        startIndex := 1
        endIndex := 1
        rawSpan := { start := 0, stop := 15 }
        vectorSpan := { start := 0, stop := 23 } } }

/-- A sample file with one chunk. -/
def sampleFile : FileToIndex :=
  { path := "a.ts", hash := "h1", chunks := [sampleChunk] }

/-- The two-text input of the response-order counterexample. -/
def permTexts : List String := ["a", "b"]

/-- A single successful attempt whose well-formed response lists the
embeddings in descending input-index order. -/
def permAttempts : Nat → List BatchAttempt := fun _ =>
  [.ok [{ index := 1, embedding := [10] }, { index := 0, embedding := [20] }]]

/-- An unchanged scan result whose metadata row is stale. -/
def sampleUnchanged : ProcessResult :=
  { absPath := "/repo/a.ts", relPath := "a.ts", hash := "h2", content := none
    chunks := [], language := "typescript", mtime := 2, size := 10
    status := .unchanged, err := none }

/-- The filesystem entry behind `sampleUnchanged`. -/
def sampleFs : FsFile :=
  { absPath := "/repo/a.ts", relPath := "a.ts", readable := true
    content := "function f()", hash := "h2", mtime := 2, size := 10
    language := "typescript", chunks := [sampleChunk] }

/-- A metadata row whose index state is current. -/
def sampleMeta : FileMeta :=
  { path := "a.ts", hash := "h2", mtime := 2, size := 10, content := none
    language := "typescript", vectorIndexHash := some "h2" }

/-- A persistent index state recorded with dimension 1024. -/
def sampleIndexState : IndexState :=
  { meta := [sampleMeta]
    storedDimensions := some 1024
    vectorChunks := [] }

/-- Per-batch response data listing the embeddings in ascending input-index
order, for a three-text input split into batches of two. -/
def inOrderData : Nat → List EmbeddingData := fun bi =>
  if bi = 0 then
    [{ index := 0, embedding := [1] }, { index := 1, embedding := [2] }]
  else [{ index := 0, embedding := [3] }]

/-- One successful attempt per batch carrying `inOrderData`. -/
def inOrderAttempts : Nat → List BatchAttempt := fun bi => [.ok (inOrderData bi)]

/-- A controller state at the configured maximum concurrency 1 with an
accumulated backoff of 40 s. -/
def rlSample : RLState :=
  { isPaused := false
    currentConcurrency := 1
    maxConcurrency := 1
    activeRequests := 0
    consecutiveSuccesses := 0
    backoffMs := 40000 }

/- ## Equation lemmas for the batch splitter -/

theorem mkBatches_nil (batchSize : Nat) : mkBatches batchSize [] = [] := by
  simp [mkBatches]

theorem mkBatches_cons (batchSize : Nat) (t : String) (ts : List String) :
    mkBatches batchSize (t :: ts) =
      (t :: ts.take (batchSize - 1)) :: mkBatches batchSize (ts.drop (batchSize - 1)) := by
  simp [mkBatches]

/- ## Rate-limit controller lemmas -/

theorem releaseSuccess_grow (s : RLState)
    (hlt : s.currentConcurrency < s.maxConcurrency)
    (h3 : successesPerConcurrencyIncrease ≤ s.consecutiveSuccesses + 1) :
    releaseSuccess s =
      { s with
        activeRequests := s.activeRequests - 1
        currentConcurrency := s.currentConcurrency + 1
        consecutiveSuccesses := 0 } := by
  simp [releaseSuccess, hlt, h3]

theorem releaseSuccess_no_grow (s : RLState)
    (hng : ¬ (s.currentConcurrency < s.maxConcurrency ∧
      successesPerConcurrencyIncrease ≤ s.consecutiveSuccesses + 1)) :
    releaseSuccess s =
      { s with
        activeRequests := s.activeRequests - 1
        consecutiveSuccesses := s.consecutiveSuccesses + 1
        backoffMs :=
          if (s.consecutiveSuccesses + 1) % 10 = 0 then
            Nat.max minBackoffMs (s.backoffMs / 2)
          else s.backoffMs } := by
  by_cases hm : (s.consecutiveSuccesses + 1) % 10 = 0
  · simp [releaseSuccess, hng, hm]
  · simp [releaseSuccess, hng, hm]

theorem releaseSuccess_conc_le (s : RLState)
    (h : s.currentConcurrency ≤ s.maxConcurrency) :
    (releaseSuccess s).currentConcurrency ≤ s.maxConcurrency := by
  by_cases hg : s.currentConcurrency < s.maxConcurrency ∧
      successesPerConcurrencyIncrease ≤ s.consecutiveSuccesses + 1
  · rw [releaseSuccess_grow s hg.1 hg.2]
    exact hg.1
  · rw [releaseSuccess_no_grow s hg]
    exact h

theorem releaseSuccess_backoff_lb (s : RLState)
    (h : minBackoffMs ≤ s.backoffMs) :
    minBackoffMs ≤ (releaseSuccess s).backoffMs := by
  by_cases hg : s.currentConcurrency < s.maxConcurrency ∧
      successesPerConcurrencyIncrease ≤ s.consecutiveSuccesses + 1
  · rw [releaseSuccess_grow s hg.1 hg.2]
    exact h
  · rw [releaseSuccess_no_grow s hg]
    by_cases hm : (s.consecutiveSuccesses + 1) % 10 = 0
    · simp only [if_pos hm]
      exact Nat.le_max_left _ _
    · simp only [if_neg hm]
      exact h

theorem releaseSuccess_iterate_backoff_lb (s : RLState)
    (h : minBackoffMs ≤ s.backoffMs) :
    ∀ n, minBackoffMs ≤ (releaseSuccess^[n] s).backoffMs := by
  intro n
  induction n with
  | zero => exact h
  | succ n ih =>
      rw [Function.iterate_succ_apply']
      exact releaseSuccess_backoff_lb _ ih

theorem releaseSuccess_iterate_at_max (p : Bool) (c m a b : Nat) (hm : ¬ c < m) :
    ∀ k, k ≤ 9 →
      releaseSuccess^[k] ⟨p, c, m, a, 0, b⟩ = ⟨p, c, m, a - k, k, b⟩ := by
  intro k
  induction k with
  | zero => intro _; simp
  | succ k ih =>
      intro hk
      rw [Function.iterate_succ_apply', ih (by omega),
        releaseSuccess_no_grow _ (by intro hc; exact hm hc.1)]
      have hmod : (k + 1) % 10 = k + 1 := Nat.mod_eq_of_lt (by omega)
      simp [hmod, Nat.sub_sub]

theorem releaseSuccess_iterate10_at_max (p : Bool) (c m a b : Nat) (hm : ¬ c < m) :
    releaseSuccess^[10] ⟨p, c, m, a, 0, b⟩ =
      ⟨p, c, m, a - 10, 10, Nat.max minBackoffMs (b / 2)⟩ := by
  rw [show (10 : Nat) = 9 + 1 from rfl, Function.iterate_succ_apply',
    releaseSuccess_iterate_at_max p c m a b hm 9 (by omega),
    releaseSuccess_no_grow _ (by intro hc; exact hm hc.1)]
  simp [Nat.sub_sub]

theorem releaseSuccess_three_growth (t : RLState)
    (h0 : t.consecutiveSuccesses = 0)
    (hlt : t.currentConcurrency < t.maxConcurrency) :
    (releaseSuccess^[successesPerConcurrencyIncrease] t).currentConcurrency =
      t.currentConcurrency + 1 := by
  obtain ⟨p, c, m, a, cs, b⟩ := t
  replace h0 : cs = 0 := h0
  replace hlt : c < m := hlt
  subst h0
  have e1 : releaseSuccess ⟨p, c, m, a, 0, b⟩ = ⟨p, c, m, a - 1, 1, b⟩ := by
    rw [releaseSuccess_no_grow _
      (by intro hc; have h2 := hc.2; simp [successesPerConcurrencyIncrease] at h2)]
    simp
  have e2 : releaseSuccess ⟨p, c, m, a - 1, 1, b⟩ = ⟨p, c, m, a - 1 - 1, 2, b⟩ := by
    rw [releaseSuccess_no_grow _
      (by intro hc; have h2 := hc.2; simp [successesPerConcurrencyIncrease] at h2)]
    simp
  have e3 : releaseSuccess ⟨p, c, m, a - 1 - 1, 2, b⟩ =
      ⟨p, c + 1, m, a - 1 - 1 - 1, 0, b⟩ := by
    rw [releaseSuccess_grow _ hlt (by simp [successesPerConcurrencyIncrease])]
  show (releaseSuccess^[3] (⟨p, c, m, a, 0, b⟩ : RLState)).currentConcurrency = c + 1
  rw [show (3 : Nat) = 2 + 1 from rfl, Function.iterate_succ_apply',
    show (2 : Nat) = 1 + 1 from rfl, Function.iterate_succ_apply',
    Function.iterate_one, e1, e2, e3]

/-- C4: a 429 pauses all future slot acquisitions, the pause lasts the current
backoff (5000 ms initially, doubled after each pause, capped at 60000 ms),
effective concurrency restarts at 1 and regrows by one slot per 3 consecutive
successful requests, never exceeding the configured maximum. -/
theorem C4_rate_limit_controller (s : RLState) (hp : s.isPaused = false)
    (hmax : 1 ≤ s.maxConcurrency) :
    (∀ mc, (RLState.init mc).backoffMs = minBackoffMs) ∧
    (triggerRateLimit s).1 = s.backoffMs ∧
    (triggerRateLimitEnter s).isPaused = true ∧
    acquireWouldWait (triggerRateLimitEnter s) = true ∧
    (triggerRateLimit s).2.backoffMs = Nat.min maxBackoffMs (s.backoffMs * 2) ∧
    (triggerRateLimit s).2.currentConcurrency = 1 ∧
    (triggerRateLimit s).2.consecutiveSuccesses = 0 ∧
    (triggerRateLimit s).2.currentConcurrency ≤ s.maxConcurrency ∧
    (∀ t : RLState, t.consecutiveSuccesses = 0 →
      t.currentConcurrency < t.maxConcurrency →
      (releaseSuccess^[successesPerConcurrencyIncrease] t).currentConcurrency =
        t.currentConcurrency + 1) ∧
    (∀ t : RLState, t.currentConcurrency ≤ t.maxConcurrency →
      (releaseSuccess t).currentConcurrency ≤ t.maxConcurrency) :=
  ⟨fun _ => rfl, rfl, rfl, rfl, rfl, rfl, rfl, hmax,
   fun t h0 hlt => releaseSuccess_three_growth t h0 hlt,
   fun t h => releaseSuccess_conc_le t h⟩

/-- C4 witness: the controller constructed with maximum concurrency 4
satisfies the hypotheses, waits its initial 5000 ms backoff on the first 429
and resumes with effective concurrency 1. -/
theorem C4_witness :
    (RLState.init 4).isPaused = false ∧ 1 ≤ (RLState.init 4).maxConcurrency ∧
    (triggerRateLimit (RLState.init 4)).1 = 5000 ∧
    (triggerRateLimit (RLState.init 4)).2.currentConcurrency = 1 := by
  have h := C4_rate_limit_controller (RLState.init 4) rfl (by decide)
  exact ⟨rfl, by decide, by rw [h.2.1]; rfl, h.2.2.2.2.2.1⟩

set_option maxRecDepth 8192 in
/-- C8 counterexample: from a state at maximum concurrency with backoff
40000 ms and a fresh streak, the backoff is already halved after 10
consecutive successes, and after 30 consecutive successes it is 5000 ms — not
the 20000 ms a single halving at the 30-success mark would give. -/
theorem C8_counterexample :
    (releaseSuccess^[10] rlSample).backoffMs = 20000 ∧
    (releaseSuccess^[30] rlSample).backoffMs = 5000 ∧
    rlSample.backoffMs / 2 = 20000 ∧
    (releaseSuccess^[30] rlSample).backoffMs ≠ rlSample.backoffMs / 2 := by
  decide

/-- C8 amended: once effective concurrency is back at the configured maximum,
every 10 consecutive successful requests halve the backoff (clamped below at
the initial 5000 ms), and no run of successes ever drives the backoff below
5000 ms. -/
theorem C8_backoff_halving (s : RLState)
    (hmax : s.maxConcurrency ≤ s.currentConcurrency)
    (h0 : s.consecutiveSuccesses = 0)
    (hb : minBackoffMs ≤ s.backoffMs) :
    (releaseSuccess^[10] s).backoffMs = Nat.max minBackoffMs (s.backoffMs / 2) ∧
    ∀ n, minBackoffMs ≤ (releaseSuccess^[n] s).backoffMs := by
  obtain ⟨p, c, m, a, cs, b⟩ := s
  replace hmax : m ≤ c := hmax
  replace h0 : cs = 0 := h0
  replace hb : minBackoffMs ≤ b := hb
  subst h0
  constructor
  · rw [releaseSuccess_iterate10_at_max p c m a b (Nat.not_lt.mpr hmax)]
  · exact releaseSuccess_iterate_backoff_lb _ hb

/-- C8 witness: a controller at its maximum concurrency 2 with backoff
20000 ms reaches backoff 10000 ms after 10 consecutive successes and never
drops below 5000 ms. -/
theorem C8_witness :
    (releaseSuccess^[10] (⟨false, 2, 2, 5, 0, 20000⟩ : RLState)).backoffMs = 10000 ∧
    minBackoffMs ≤ (releaseSuccess^[7] (⟨false, 2, 2, 5, 0, 20000⟩ : RLState)).backoffMs := by
  have h := C8_backoff_halving ⟨false, 2, 2, 5, 0, 20000⟩ (by decide) (by decide) (by decide)
  refine ⟨?_, h.2 7⟩
  rw [h.1]
  decide

/-- C6: a network-class batch error is retried at most 3 times with
exponential backoff delays of 1000, 2000 and 4000 ms; a fourth network-class
error in a row is thrown, an error that is neither network-class nor
rate-limited is thrown immediately (no retry, no delay), and a success within
the retry budget returns the batch results. -/
theorem C6_network_retry_policy :
    (∀ (texts : List String) (start : Nat) (m1 m2 m3 m4 : String)
        (rest : List BatchAttempt),
      processWithRateLimit texts start
          (.err false true m1 :: .err false true m2 :: .err false true m3 ::
            .err false true m4 :: rest) 0 =
        (.thrown m4,
         { slotAcquisitions := 4, httpRequests := 4, progressCalls := 0,
           retryDelaysMs := [1000, 2000, 4000], rateLimitTriggers := 0 })) ∧
    (∀ (texts : List String) (start : Nat) (msg : String)
        (rest : List BatchAttempt) (retries : Nat),
      processWithRateLimit texts start (.err false false msg :: rest) retries =
        (.thrown msg,
         { slotAcquisitions := 1, httpRequests := 1, progressCalls := 0,
           retryDelaysMs := [], rateLimitTriggers := 0 })) ∧
    (∀ (texts : List String) (start : Nat) (m1 m2 : String)
        (data : List EmbeddingData) (rest : List BatchAttempt),
      processWithRateLimit texts start
          (.err false true m1 :: .err false true m2 :: .ok data :: rest) 0 =
        (.ok (processBatch texts start data),
         { slotAcquisitions := 3, httpRequests := 3, progressCalls := 1,
           retryDelaysMs := [1000, 2000], rateLimitTriggers := 0 })) := by
  refine ⟨?_, ?_, ?_⟩ <;> intros <;>
    norm_num [processWithRateLimit, MAX_NETWORK_RETRIES, INITIAL_RETRY_DELAY_MS]

/-- C10: `embedBatch` on an empty text list returns an empty result list with
no HTTP request, no slot acquisition and no progress report; by contrast a
one-text call performs one of each. -/
theorem C10_embedBatch_empty (batchSize : Nat)
    (attempts : Nat → List BatchAttempt) :
    embedBatch [] batchSize attempts = { result := .ok [], trace := emptyTrace } ∧
    (embedBatch ["x"] 20 (fun _ => [.ok [{ index := 0, embedding := [1] }]])).trace =
      { slotAcquisitions := 1, httpRequests := 1, progressCalls := 1,
        retryDelaysMs := [], rateLimitTriggers := 0 } := by
  constructor
  · rfl
  · simp [embedBatch, mkBatches_cons, mkBatches_nil, processWithRateLimit,
      emptyTrace, ProcTrace.add]

/-- C9 (code bug): with the reranker key, base URL and model configured but
`RERANK_TOP_N` unset — or set to a value that does not parse as an integer —
`getRerankerConfig` returns `topN = 10`, not the documented default 20. -/
theorem C9_rerank_topN_default :
    getRerankerConfig
        { apiKey := some "k", baseUrl := some "u", model := some "m",
          topN := none } =
      .ok { apiKey := "k", baseUrl := "u", model := "m", topN := 10 } ∧
    getRerankerConfig
        { apiKey := some "k", baseUrl := some "u", model := some "m",
          topN := some "abc" } =
      .ok { apiKey := "k", baseUrl := "u", model := "m", topN := 10 } ∧
    (10 : Nat) ≠ 20 :=
  ⟨rfl, rfl, by decide⟩

/- ## Indexer lemmas -/

theorem assembleRecords_length (embeddings : List (List Int)) (offset : Nat)
    (f : FileToIndex) :
    (assembleRecords embeddings offset f).length = f.chunks.length := by
  simp [assembleRecords]

theorem ftsChunks_length (files : List FileToIndex) (embeddings : List (List Int)) :
    ((files.enum.map fun p =>
        (p.2.path, p.2.hash,
          assembleRecords embeddings (chunkOffset files p.1) p.2)).flatMap
      fun fu => fu.2.2.map ftsChunkOf).length = (allVectorTexts files).length := by
  simp only [allVectorTexts, List.flatMap_def, List.length_flatten, List.map_map,
    Function.comp_def, List.length_map, assembleRecords_length]
  have h1 : (files.enum.map fun p => p.2.chunks.length)
      = (files.enum.map Prod.snd).map fun f => f.chunks.length := by
    rw [List.map_map]
    rfl
  rw [h1, List.enum_map_snd]

/-- C1: if the batched embedding call of `batchIndex` fails permanently, or
the vector-store batch write fails, nothing is recorded as indexed:
`vector_index_hash` is cleared for every file of the batch (the only store
mutation), the stats report `success = 0` and `errors` equal to the number of
files, and applying the issued mutation to any file table nulls the
`vector_index_hash` of exactly the batch's paths. -/
theorem C1_batchIndex_failure_clears (files : List FileToIndex)
    (attempts : Nat → List BatchAttempt) (ftsInitialized : Bool)
    (ftsWrite : Except String Unit)
    (hne : files ≠ [])
    (htexts : (allVectorTexts files).length ≠ 0) :
    (∀ e, (embedBatch (allVectorTexts files) 20 attempts).result = .error e →
      ∀ vectorWrite,
        batchIndex files attempts vectorWrite ftsInitialized ftsWrite =
          { success := 0, errors := files.length,
            ops := [.clearVectorIndexHash (files.map fun f => f.path)] }) ∧
    (∀ rs, (embedBatch (allVectorTexts files) 20 attempts).result = .ok rs →
      ∀ e, batchIndex files attempts (.error e) ftsInitialized ftsWrite =
        { success := 0, errors := files.length,
          ops := [.clearVectorIndexHash (files.map fun f => f.path)] }) ∧
    (∀ meta : List FileMeta,
      [StoreOp.clearVectorIndexHash (files.map fun f => f.path)].foldl
          applyStoreOp meta =
        meta.map fun m =>
          if m.path ∈ files.map (fun f => f.path) then
            { m with vectorIndexHash := none }
          else m) := by
  have hlen : ¬ files.length = 0 := by
    simpa [List.length_eq_zero] using hne
  refine ⟨?_, ?_, ?_⟩
  · intro e he vectorWrite
    simp [batchIndex, hlen, htexts, he]
  · intro rs hok e
    simp [batchIndex, hlen, htexts, hok]
  · intro meta
    rfl

/-- C1 witness: a one-file batch whose only embedding attempt throws a
permanent (non-retryable) error is fully marked dirty and counted as one
error. -/
theorem C1_witness :
    batchIndex [sampleFile] (fun _ => [.err false false "boom"])
        (.ok ()) true (.ok ()) =
      { success := 0, errors := 1, ops := [.clearVectorIndexHash ["a.ts"]] } := by
  have he : (embedBatch (allVectorTexts [sampleFile]) 20
      (fun _ => [.err false false "boom"])).result = .error "boom" := by
    simp [embedBatch, allVectorTexts, sampleFile, sampleChunk, mkBatches_cons,
      mkBatches_nil, processWithRateLimit, collectResults]
  have h := C1_batchIndex_failure_clears [sampleFile]
      (fun _ => [.err false false "boom"]) true (.ok ())
      (by simp) (by simp [allVectorTexts, sampleFile, sampleChunk])
  have h2 := h.1 "boom" he (.ok ())
  simpa [sampleFile] using h2

/-- C7: when the vector-store batch write succeeds but the FTS update throws,
`batchIndex` neither fails nor marks files as errors: all files count as
successfully indexed, `vector_index_hash` is still set to the content hash
for every file, no dirty-marking happens, and no FTS rows are written. -/
theorem C7_fts_failure_nonfatal (files : List FileToIndex)
    (attempts : Nat → List BatchAttempt) (e : String)
    (rs : List EmbeddingResult)
    (hne : files ≠ [])
    (htexts : (allVectorTexts files).length ≠ 0)
    (hok : (embedBatch (allVectorTexts files) 20 attempts).result = .ok rs) :
    (batchIndex files attempts (.ok ()) true (.error e)).success = files.length ∧
    (batchIndex files attempts (.ok ()) true (.error e)).errors = 0 ∧
    StoreOp.batchUpdateVectorIndexHash (files.map fun f => (f.path, f.hash)) ∈
      (batchIndex files attempts (.ok ()) true (.error e)).ops ∧
    (∀ ps, StoreOp.clearVectorIndexHash ps ∉
      (batchIndex files attempts (.ok ()) true (.error e)).ops) ∧
    (∀ cs, StoreOp.ftsBatchUpsertChunks cs ∉
      (batchIndex files attempts (.ok ()) true (.error e)).ops) := by
  have hlen : ¬ files.length = 0 := by
    simpa [List.length_eq_zero] using hne
  have hpos : 0 < ((files.enum.map fun p =>
      (p.2.path, p.2.hash,
        assembleRecords (rs.map fun r => r.embedding) (chunkOffset files p.1) p.2)).flatMap
      fun fu => fu.2.2.map ftsChunkOf).length := by
    rw [ftsChunks_length]
    exact Nat.pos_of_ne_zero htexts
  have hb : batchIndex files attempts (.ok ()) true (.error e) =
      { success := files.length, errors := 0,
        ops := [StoreOp.vectorBatchUpsertFiles (files.enum.map fun p =>
            (p.2.path, p.2.hash,
              assembleRecords (rs.map fun r => r.embedding) (chunkOffset files p.1) p.2)),
          StoreOp.batchUpdateVectorIndexHash (files.map fun f => (f.path, f.hash))] } := by
    simp [batchIndex, hlen, htexts, hok, hpos]
  refine ⟨by rw [hb], by rw [hb], ?_, ?_, ?_⟩
  · rw [hb]
    simp
  · intro ps
    rw [hb]
    simp
  · intro cs
    rw [hb]
    simp

/-- C7 witness: a one-file batch whose embedding succeeds and whose FTS
update throws is still counted as indexed and gets its hash recorded. -/
theorem C7_witness :
    (batchIndex [sampleFile] (fun _ => [.ok [{ index := 0, embedding := [5] }]])
        (.ok ()) true (.error "ftsdown")).success = 1 ∧
    (batchIndex [sampleFile] (fun _ => [.ok [{ index := 0, embedding := [5] }]])
        (.ok ()) true (.error "ftsdown")).errors = 0 ∧
    StoreOp.batchUpdateVectorIndexHash [("a.ts", "h1")] ∈
      (batchIndex [sampleFile] (fun _ => [.ok [{ index := 0, embedding := [5] }]])
        (.ok ()) true (.error "ftsdown")).ops := by
  have hok : (embedBatch (allVectorTexts [sampleFile]) 20
      (fun _ => [.ok [{ index := 0, embedding := [5] }]])).result =
      .ok [{ text := sampleChunk.vectorText, embedding := [5], index := 0 }] := by
    simp [embedBatch, allVectorTexts, sampleFile, sampleChunk, mkBatches_cons,
      mkBatches_nil, processWithRateLimit, collectResults, processBatch, Except.map]
  have h := C7_fts_failure_nonfatal [sampleFile]
      (fun _ => [.ok [{ index := 0, embedding := [5] }]]) "ftsdown"
      [{ text := sampleChunk.vectorText, embedding := [5], index := 0 }]
      (by simp) (by simp [allVectorTexts, sampleFile, sampleChunk]) hok
  refine ⟨?_, h.2.1, ?_⟩
  · rw [h.1]
    rfl
  · have h3 := h.2.2.1
    simpa [sampleFile] using h3

/-- C2: for every scan result that is `unchanged` but whose path is in the
needs-reindex set, the re-read and re-chunked file enters the Indexer input as
`modified`; if its fresh chunk set is nonempty it lands in the Indexer's
to-index partition and each of its chunk texts is among the texts sent to the
embedder. -/
theorem C2_self_healing (results : List ProcessResult)
    (healingPaths deletedPaths : List String) (fsEntry : String → FsFile)
    (r : ProcessResult)
    (hmem : r ∈ results) (hstatus : r.status = FileStatus.unchanged)
    (hheal : r.relPath ∈ healingPaths)
    (hread : (fsEntry r.absPath).readable = true) :
    ({ processFile [] (fsEntry r.absPath) with status := FileStatus.modified })
      ∈ scanVectorIndexCandidates results healingPaths deletedPaths fsEntry ∧
    (0 < (fsEntry r.absPath).chunks.length →
      ({ path := (fsEntry r.absPath).relPath
         hash := (fsEntry r.absPath).hash
         chunks := (fsEntry r.absPath).chunks } : FileToIndex)
        ∈ indexFilesToIndex
            (scanVectorIndexCandidates results healingPaths deletedPaths fsEntry)) ∧
    (∀ c ∈ (fsEntry r.absPath).chunks, c.vectorText ∈
      allVectorTexts (indexFilesToIndex
        (scanVectorIndexCandidates results healingPaths deletedPaths fsEntry))) := by
  have hpf : processFile [] (fsEntry r.absPath) =
      { absPath := (fsEntry r.absPath).absPath
        relPath := (fsEntry r.absPath).relPath
        hash := (fsEntry r.absPath).hash
        content := some (fsEntry r.absPath).content
        chunks := (fsEntry r.absPath).chunks
        language := (fsEntry r.absPath).language
        mtime := (fsEntry r.absPath).mtime
        size := (fsEntry r.absPath).size
        status := .added, err := none } := by
    simp [processFile, hread]
  have hfilter : r ∈ results.filter fun x =>
      x.status = FileStatus.unchanged ∧ x.relPath ∈ healingPaths := by
    simp only [List.mem_filter]
    exact ⟨hmem, by simp [hstatus, hheal]⟩
  have hpath : r.absPath ∈ (results.filter fun x =>
      x.status = FileStatus.unchanged ∧ x.relPath ∈ healingPaths).map
        (fun x => x.absPath) :=
    List.mem_map_of_mem _ hfilter
  have hlenpos : 0 < ((results.filter fun x =>
      x.status = FileStatus.unchanged ∧ x.relPath ∈ healingPaths).map
        (fun x => x.absPath)).length :=
    List.length_pos.mpr (List.ne_nil_of_mem hpath)
  have hmem2 : ({ processFile [] (fsEntry r.absPath) with
      status := FileStatus.modified })
      ∈ scanVectorIndexCandidates results healingPaths deletedPaths fsEntry := by
    unfold scanVectorIndexCandidates
    simp only [if_pos hlenpos]
    refine List.mem_append.mpr (Or.inl (List.mem_append.mpr (Or.inr ?_)))
    refine List.mem_map_of_mem _ ?_
    simp only [List.mem_filter]
    constructor
    · exact List.mem_map_of_mem _ (List.mem_map_of_mem fsEntry hpath)
    · simp [hpf, processFiles]
  refine ⟨hmem2, ?_, ?_⟩
  · intro hc
    refine List.mem_filterMap.mpr ⟨_, hmem2, ?_⟩
    simp [hpf, hc]
  · intro c hcmem
    have hc : 0 < (fsEntry r.absPath).chunks.length :=
      List.length_pos.mpr (List.ne_nil_of_mem hcmem)
    have hfile : ({ path := (fsEntry r.absPath).relPath,
                    hash := (fsEntry r.absPath).hash,
                    chunks := (fsEntry r.absPath).chunks } : FileToIndex)
        ∈ indexFilesToIndex
            (scanVectorIndexCandidates results healingPaths deletedPaths fsEntry) := by
      refine List.mem_filterMap.mpr ⟨_, hmem2, ?_⟩
      simp [hpf, hc]
    exact List.mem_flatMap.mpr ⟨_, hfile, List.mem_map_of_mem _ hcmem⟩

/-- C2 witness: a concrete unchanged file with a stale row is re-chunked and
fed to the Indexer as modified with its fresh chunk. -/
theorem C2_witness :
    ({ processFile [] sampleFs with status := FileStatus.modified })
      ∈ scanVectorIndexCandidates [sampleUnchanged] ["a.ts"] []
          (fun _ => sampleFs) ∧
    ({ path := "a.ts", hash := "h2", chunks := [sampleChunk] } : FileToIndex)
      ∈ indexFilesToIndex
          (scanVectorIndexCandidates [sampleUnchanged] ["a.ts"] []
            (fun _ => sampleFs)) := by
  have h := C2_self_healing [sampleUnchanged] ["a.ts"] [] (fun _ => sampleFs)
      sampleUnchanged (by simp) (by simp [sampleUnchanged])
      (by simp [sampleUnchanged]) (by simp [sampleFs])
  refine ⟨h.1, ?_⟩
  have h2 := h.2.1 (by simp [sampleFs])
  simpa [sampleFs] using h2

/-- C3: a stored embedding dimension different from the configured one forces
exactly one full reindex: the metadata table, the known-file map and the
vector store are cleared (so every readable file is processed as new), the
configured dimension is written back, and an immediately following scan with
the same configuration does not force another reindex. -/
theorem C3_dimension_change_single_reindex (st : IndexState) (d current : Nat)
    (hstored : st.storedDimensions = some d) (hne : d ≠ current) :
    (scanDimensionCheck false true current st).forceReindex = true ∧
    (scanDimensionCheck false true current st).state.meta = [] ∧
    (scanDimensionCheck false true current st).state.vectorChunks = [] ∧
    (scanDimensionCheck false true current st).knownFiles = [] ∧
    (scanDimensionCheck false true current st).state.storedDimensions =
      some current ∧
    (∀ f : FsFile, f.readable = true →
      (processFile
        (knownOf (scanDimensionCheck false true current st).state.meta) f).status =
        FileStatus.added) ∧
    (scanDimensionCheck false true current
        (scanDimensionCheck false true current st).state).forceReindex = false := by
  have hfr : (scanDimensionCheck false true current st).forceReindex = true := by
    simp [scanDimensionCheck, getStoredEmbeddingDimensions, hstored, hne]
  have hst : (scanDimensionCheck false true current st).state =
      { meta := [], storedDimensions := some current, vectorChunks := [] } := by
    simp [scanDimensionCheck, getStoredEmbeddingDimensions, hstored, hne,
      setStoredEmbeddingDimensions, dbClear, vectorStoreClear]
  refine ⟨hfr, by rw [hst], by rw [hst], ?_, by rw [hst], ?_, ?_⟩
  · show (scanDimensionCheck false true current st).state.meta = []
    rw [hst]
  · intro f hf
    rw [hst]
    simp [processFile, hf, knownOf]
  · rw [hst]
    simp [scanDimensionCheck, getStoredEmbeddingDimensions]

/-- C3 witness: dimension 1024 recorded, configuration changed to 768 — the
first scan reindexes and records 768, the next one does not reindex. -/
theorem C3_witness :
    (scanDimensionCheck false true 768 sampleIndexState).forceReindex = true ∧
    (scanDimensionCheck false true 768 sampleIndexState).state.storedDimensions =
      some 768 ∧
    (scanDimensionCheck false true 768
        (scanDimensionCheck false true 768 sampleIndexState).state).forceReindex =
      false := by
  have h := C3_dimension_change_single_reindex sampleIndexState 1024 768
      (by simp [sampleIndexState]) (by decide)
  exact ⟨h.1, h.2.2.2.2.1, h.2.2.2.2.2.2⟩

/- ## Ordering of embedBatch results -/

theorem map_getD_range {α : Type} (l : List α) (dflt : α) :
    (List.range l.length).map (fun i => l.getD i dflt) = l := by
  induction l with
  | nil => rfl
  | cons a tl ih =>
      rw [List.length_cons, List.range_succ_eq_map, List.map_cons, List.map_map]
      simp only [List.getD_cons_zero, Function.comp_def, List.getD_cons_succ]
      rw [ih]

theorem processBatch_map_text (ts : List String) (start : Nat)
    (d : List EmbeddingData)
    (hd : d.map (fun it => it.index) = List.range ts.length) :
    (processBatch ts start d).map (fun r => r.text) = ts := by
  have h1 : (processBatch ts start d).map (fun r => r.text)
      = (d.map fun it => it.index).map (fun i => ts.getD i "") := by
    simp [processBatch, List.map_map, Function.comp_def]
  rw [h1, hd, map_getD_range]

theorem processBatch_map_index (ts : List String) (start : Nat)
    (d : List EmbeddingData)
    (hd : d.map (fun it => it.index) = List.range ts.length) :
    (processBatch ts start d).map (fun r => r.index) =
      (List.range ts.length).map (fun i => start + i) := by
  have h1 : (processBatch ts start d).map (fun r => r.index)
      = (d.map fun it => it.index).map (fun i => start + i) := by
    simp [processBatch, List.map_map, Function.comp_def]
  rw [h1, hd]

theorem range_offset_split (batchSize : Nat) (hB : 0 < batchSize) (c : Nat)
    (t : String) (ts' : List String) :
    (List.range (t :: ts'.take (batchSize - 1)).length).map
        (fun i => c * batchSize + i) ++
      (List.range (ts'.drop (batchSize - 1)).length).map
        (fun i => (c + 1) * batchSize + i) =
    (List.range (t :: ts').length).map (fun i => c * batchSize + i) := by
  rcases le_or_lt ts'.length (batchSize - 1) with hle | hgt
  · rw [List.take_of_length_le hle, List.drop_eq_nil_of_le hle]
    simp
  · have hlen0 : (t :: ts'.take (batchSize - 1)).length = batchSize := by
      simp only [List.length_cons, List.length_take]
      omega
    have hlen1 : (ts'.drop (batchSize - 1)).length =
        (t :: ts').length - batchSize := by
      simp only [List.length_drop, List.length_cons]
      omega
    have hn : (t :: ts').length =
        batchSize + ((t :: ts').length - batchSize) := by
      simp only [List.length_cons]
      omega
    rw [hlen0, hlen1]
    conv_rhs => rw [hn, List.range_add]
    rw [List.map_append, List.map_map]
    congr 1
    have hfun : ((fun i => c * batchSize + i) ∘ (fun i => batchSize + i)) =
        fun i => (c + 1) * batchSize + i := by
      funext i
      simp only [Function.comp_apply]
      ring
    rw [hfun]

theorem embedBatch_inorder_core (batchSize : Nat) (hB : 0 < batchSize)
    (attempts : Nat → List BatchAttempt) (data : Nat → List EmbeddingData)
    (hatt : ∀ bi, attempts bi = [.ok (data bi)]) :
    ∀ (n : Nat) (ts : List String), ts.length ≤ n → ∀ (bi : Nat),
      (∀ k, k < (mkBatches batchSize ts).length →
        (data (bi + k)).map (fun d => d.index) =
          List.range ((mkBatches batchSize ts).getD k []).length) →
      ((collectResults
          (((mkBatches batchSize ts).enumFrom bi).map fun p =>
            (processWithRateLimit p.2 (p.1 * batchSize) (attempts p.1) 0).1)).map
        fun rs => rs.map fun r => r.text) = .ok ts ∧
      ((collectResults
          (((mkBatches batchSize ts).enumFrom bi).map fun p =>
            (processWithRateLimit p.2 (p.1 * batchSize) (attempts p.1) 0).1)).map
        fun rs => rs.map fun r => r.index) =
        .ok ((List.range ts.length).map fun i => bi * batchSize + i) := by
  intro n
  induction n with
  | zero =>
      intro ts hlen bi hord
      have hnil : ts = [] := List.length_eq_zero.mp (Nat.le_zero.mp hlen)
      subst hnil
      simp [mkBatches_nil, collectResults, Except.map]
  | succ n ih =>
      intro ts hlen bi hord
      match ts with
      | [] => simp [mkBatches_nil, collectResults, Except.map]
      | t :: ts' =>
        rw [mkBatches_cons] at hord
        have hord0 : (data bi).map (fun d => d.index) =
            List.range (t :: ts'.take (batchSize - 1)).length := by
          have h := hord 0 (by simp)
          simpa using h
        have hordRest : ∀ k, k < (mkBatches batchSize (ts'.drop (batchSize - 1))).length →
            (data (bi + 1 + k)).map (fun d => d.index) =
              List.range ((mkBatches batchSize (ts'.drop (batchSize - 1))).getD k []).length := by
          intro k hk
          have h := hord (k + 1) (by simpa using Nat.succ_lt_succ hk)
          have harith : bi + (k + 1) = bi + 1 + k := by omega
          rw [harith] at h
          simpa using h
        obtain ⟨ihtext, ihidx⟩ := ih (ts'.drop (batchSize - 1))
          (by
            have hd := List.length_drop (batchSize - 1) ts'
            have hl : ts'.length + 1 ≤ n + 1 := by simpa using hlen
            omega)
          (bi + 1) hordRest
        have hmap :
            ((mkBatches batchSize (t :: ts')).enumFrom bi).map
              (fun p => (processWithRateLimit p.2 (p.1 * batchSize) (attempts p.1) 0).1) =
            ProcOutcome.ok (processBatch (t :: ts'.take (batchSize - 1))
                (bi * batchSize) (data bi)) ::
              ((mkBatches batchSize (ts'.drop (batchSize - 1))).enumFrom (bi + 1)).map
                (fun p => (processWithRateLimit p.2 (p.1 * batchSize) (attempts p.1) 0).1) := by
          rw [mkBatches_cons, List.enumFrom_cons, List.map_cons, hatt bi]
          rfl
        rw [hmap]
        cases hcoll : collectResults
            (((mkBatches batchSize (ts'.drop (batchSize - 1))).enumFrom (bi + 1)).map
              (fun p => (processWithRateLimit p.2 (p.1 * batchSize) (attempts p.1) 0).1)) with
        | error e =>
            rw [hcoll] at ihtext
            simp [Except.map] at ihtext
        | ok rs'' =>
            rw [hcoll] at ihtext ihidx
            replace ihtext : rs''.map (fun r => r.text) = ts'.drop (batchSize - 1) := by
              simpa [Except.map] using ihtext
            replace ihidx : rs''.map (fun r => r.index) =
                (List.range (ts'.drop (batchSize - 1)).length).map
                  (fun i => (bi + 1) * batchSize + i) := by
              simpa [Except.map] using ihidx
            constructor
            · simp only [collectResults, hcoll, Except.map, List.map_append]
              rw [processBatch_map_text _ _ _ hord0, ihtext]
              rw [List.cons_append, List.take_append_drop]
            · simp only [collectResults, hcoll, Except.map, List.map_append]
              rw [processBatch_map_index _ _ _ hord0, ihidx,
                range_offset_split batchSize hB bi t ts']

/-- C5 counterexample: for the two-text input and a well-formed response (one
embedding per input text, each tagged with its input index) that lists the
items in descending index order, `embedBatch` returns the results in response
order: the first returned result has text `"b"`, not `texts[0] = "a"`, and
index 1, not 0. -/
theorem C5_counterexample :
    (embedBatch permTexts 20 permAttempts).result =
      .ok [{ text := "b", embedding := [10], index := 1 },
           { text := "a", embedding := [20], index := 0 }] ∧
    ([{ index := 1, embedding := [10] },
      { index := 0, embedding := [20] }].map
        (fun d => EmbeddingData.index d)).Perm (List.range permTexts.length) ∧
    [({ text := "b", embedding := [10], index := 1 } : EmbeddingResult),
     { text := "a", embedding := [20], index := 0 }].map
        (fun r => r.text) ≠ permTexts := by
  refine ⟨?_, by decide, by decide⟩
  simp [embedBatch, permTexts, permAttempts, mkBatches_cons, mkBatches_nil,
    processWithRateLimit, collectResults, processBatch, Except.map]

/-- C5 amended: provided each batch response additionally lists its
embeddings in ascending input-index order (`data[j].index = j`), `embedBatch`
returns exactly one result per input text in input order — the i-th result
has text `texts[i]` and index `i`. -/
theorem C5_embedBatch_inorder (texts : List String) (batchSize : Nat)
    (hB : 0 < batchSize)
    (attempts : Nat → List BatchAttempt) (data : Nat → List EmbeddingData)
    (hatt : ∀ bi, attempts bi = [.ok (data bi)])
    (hord : ∀ k, k < (mkBatches batchSize texts).length →
      (data k).map (fun d => d.index) =
        List.range ((mkBatches batchSize texts).getD k []).length) :
    ((embedBatch texts batchSize attempts).result.map
      fun rs => rs.map fun r => r.text) = .ok texts ∧
    ((embedBatch texts batchSize attempts).result.map
      fun rs => rs.map fun r => r.index) = .ok (List.range texts.length) := by
  by_cases hemp : texts.length = 0
  · have hnil : texts = [] := List.length_eq_zero.mp hemp
    subst hnil
    exact ⟨rfl, rfl⟩
  · have hcore := embedBatch_inorder_core batchSize hB attempts data hatt
      texts.length texts (Nat.le_refl _) 0
      (by
        intro k hk
        simpa using hord k hk)
    have hrw : (embedBatch texts batchSize attempts).result =
        collectResults
          (((mkBatches batchSize texts).enumFrom 0).map fun p =>
            (processWithRateLimit p.2 (p.1 * batchSize) (attempts p.1) 0).1) := by
      unfold embedBatch
      rw [if_neg hemp]
      simp only [List.enum_eq_enumFrom, List.map_map]
      rfl
    rw [hrw]
    refine ⟨hcore.1, ?_⟩
    rw [hcore.2]
    simp

/-- C5 amended witness: three texts in batches of two with in-order responses
come back in input order with indexes 0, 1, 2. -/
theorem C5_witness :
    ((embedBatch ["a", "b", "c"] 2 inOrderAttempts).result.map
      fun rs => rs.map fun r => r.text) = .ok ["a", "b", "c"] ∧
    ((embedBatch ["a", "b", "c"] 2 inOrderAttempts).result.map
      fun rs => rs.map fun r => r.index) = .ok [0, 1, 2] := by
  have hmb : mkBatches 2 ["a", "b", "c"] = [["a", "b"], ["c"]] := by
    simp [mkBatches_cons, mkBatches_nil]
  have h := C5_embedBatch_inorder ["a", "b", "c"] 2 (by decide)
      inOrderAttempts inOrderData (fun bi => rfl)
      (by
        intro k hk
        rw [hmb] at hk ⊢
        match k, hk with
        | 0, _ => decide
        | 1, _ => decide)
  refine ⟨h.1, ?_⟩
  rw [h.2]
  rfl

end ContextWeaver
